import Mathlib

/-
Verification of the clinic medicine-inventory tracker.

The repository consists of several near-duplicate variants of one Express
application.  The embedding below follows the xlsx-backed variant of
`src/app.js` (the one spanning the `readSheet`/`writeSheet` tabular store and
the `/dawa`, `/mtumiaji`, `/matumizi`, `/ripoti` handlers), plus, where a claim
cites them, the lowdb variant of `src/unnamed/part_002`/`src/app.js` (first
section) and the report handler of the first xlsx variant.

Conventions of the shallow embedding:
  - spreadsheet cells are `Value` (JS strings and numbers; numbers as `ℚ`);
  - a stored row / a JS object literal is a `Record`, an association list;
  - JS `x || ''` on a cell is `getOrEmpty` (missing and falsy cells both
    become the empty string, as in the source);
  - dates are integer timestamps (`Int`), an unparseable date is `none`;
  - `nanoid()` is modelled by an id supplied by the caller;
  - each route handler becomes a pure function from the tables it reads and
    the request fields to a result value plus the table it writes (the input
    table unchanged when the source returns before `writeSheet`).
-/

namespace MfumoDawa

/-! ## Cells and records of the tabular store -/

/-- A spreadsheet cell / JS primitive as it occurs in the data layer:
either a string or a number (JS numbers modelled as rationals). -/
inductive Value
  | str (s : String)
  | num (q : ℚ)
deriving DecidableEq, Repr

/-- JS falsiness of a cell value: the empty string and the number 0. -/
def Value.falsy : Value → Bool
  | .str s => s == ""
  | .num q => q == 0

/-- A record is an association list from column names to cell values,
mirroring the plain JS objects produced by `sheet_to_json`. -/
abbrev Record := List (String × Value)

/-- Field access `row[header]`: the first binding of the name, if any. -/
def getField (r : Record) (h : String) : Option Value :=
  (r.find? (fun p => p.fst == h)).map Prod.snd

/-- The `|| ''` coercion applied to an optional cell: a missing or falsy
cell becomes the empty string. -/
def normVal (v : Option Value) : Value :=
  match v with
  | some v => if v.falsy then Value.str "" else v
  | none => Value.str ""

/-- The source's `row[header] || ''`: a missing or falsy cell becomes `''`. -/
def getOrEmpty (r : Record) (h : String) : Value :=
  normVal (getField r h)

/-! ## The tabular store (`readSheet` / `writeSheet`, src/app.js 1458-1502) -/

/-- Static declaration of a named table: sheet name and column order,
mirroring the `SHEETS` constant. -/
structure SheetConfig where
  name : String
  headers : List String
deriving DecidableEq, Repr

/-- A stored sheet: its persisted header row and its data rows. -/
structure Sheet where
  headerRow : List String
  rows : List Record

/-- The workbook file: a map from sheet names to sheets. -/
def Workbook := String → Option Sheet

/-- Replacing one named sheet of a workbook (`workbook.Sheets[name] = ws`). -/
def updateWb (wb : Workbook) (name : String) (s : Sheet) : Workbook :=
  fun n => if n = name then some s else wb n

def SHEETS_DAWA : SheetConfig :=
  { name := "Dawa", headers := ["id", "jina", "aina", "kiasi", "UPDATED_AT"] }

def SHEETS_WATUMIAJI : SheetConfig :=
  { name := "Watumiaji", headers := ["id", "jina", "maelezo", "clinicId"] }

def SHEETS_MATUMIZI : SheetConfig :=
  { name := "Matumizi",
    headers := ["id", "dawaId", "mtumiajiId", "mtumiajiJina", "maelezo", "kiasi", "tarehe", "clinicId"] }

def SHEETS_CLINICS : SheetConfig :=
  { name := "Clinics", headers := ["id", "jina"] }

/-- The effective header list used by `readSheet`: the sheet's persisted
header row when it is non-empty, else the statically declared headers. -/
def effHeaders (s : Sheet) (config : SheetConfig) : List String :=
  if s.headerRow.length > 0 then s.headerRow else config.headers

/-- The body of `readSheet` before its catch-all handler.  A missing or
unreadable backing file (`xlsx.readFile` throwing) is the `none` workbook and
yields an error; a missing sheet makes `sheet_to_json` return no rows. -/
def readSheetE (file : Option Workbook) (config : SheetConfig) :
    Except String (List Record) :=
  match file with
  | none => Except.error "cannot read workbook file"
  | some wb =>
    match wb config.name with
    | none => Except.ok []
    | some sheet =>
      let headers := effHeaders sheet config
      Except.ok (sheet.rows.map (fun row => headers.map (fun h => (h, getOrEmpty row h))))

/-- `readSheet` (src/app.js 1458-1479): the catch block turns any read
failure into the empty list. -/
def readSheet (file : Option Workbook) (config : SheetConfig) : List Record :=
  match readSheetE file config with
  | Except.ok rows => rows
  | Except.error _ => []

/-- Serialization of one record by `writeSheet`: exactly the declared
columns, with `item[header] || ''` per cell. -/
def writeRow (config : SheetConfig) (item : Record) : Record :=
  config.headers.map (fun h => (h, getOrEmpty item h))

/-- `writeSheet` (src/app.js 1481-1502): rewrite the named sheet wholesale;
returns the new file plus the success boolean (reading the file fails when
it is missing, and the catch block then returns `false`). -/
def writeSheet (file : Option Workbook) (config : SheetConfig) (data : List Record) :
    Option Workbook × Bool :=
  match file with
  | none => (none, false)
  | some wb =>
    (some (updateWb wb config.name { headerRow := config.headers, rows := data.map (writeRow config) }), true)

/-- The repository's append pattern `writeSheet(key, [...(await readSheet(key)), ...new])`,
the `appendTable` operation of the spec. -/
def appendTable (file : Option Workbook) (config : SheetConfig) (newRecords : List Record) :
    Option Workbook × Bool :=
  writeSheet file config (readSheet file config ++ newRecords)

/-! ## Domain records

Typed views of the rows the handlers read and write.  Field names follow the
source's object literals; quantities are JS numbers (`ℚ`), dates are integer
timestamps with `none` for an unparseable date. -/

/-- JS `toLowerCase()` over the ASCII names the system stores, as a
character-wise map. -/
def jsToLower (s : String) : String :=
  String.mk (s.data.map Char.toLower)

/-- JS `trim()`: strip leading and trailing whitespace. -/
def jsTrim (s : String) : String :=
  String.mk (((s.data.dropWhile Char.isWhitespace).reverse.dropWhile Char.isWhitespace).reverse)

/-- A medicine row (`{id, jina, aina, kiasi, UPDATED_AT}`). -/
structure Medicine where
  id : String
  jina : String
  aina : String
  kiasi : ℚ
  UPDATED_AT : String
deriving DecidableEq, Repr

/-- A medicine row of the lowdb variant (`{id, jina, aina, kiasi}`). -/
structure MedicineL where
  id : String
  jina : String
  aina : String
  kiasi : ℚ
deriving DecidableEq, Repr

/-- A user row (`{id, jina, maelezo, clinicId}`). -/
structure User where
  id : String
  jina : String
  maelezo : String
  clinicId : String
deriving DecidableEq, Repr

/-- A usage-event row (`{id, dawaId, mtumiajiId, mtumiajiJina, maelezo,
kiasi, tarehe, clinicId}`). -/
structure Usage where
  id : String
  dawaId : String
  mtumiajiId : String
  mtumiajiJina : String
  maelezo : String
  kiasi : ℚ
  tarehe : Option Int
  clinicId : String
deriving DecidableEq, Repr

/-- A clinic row (`{id, jina}`). -/
structure Clinic where
  id : String
  jina : String
deriving DecidableEq, Repr

/-! ## Add-medicine handlers -/

/-- Outcome of a POST `/dawa/ongeza` request: a 400 render of the form with a
validation message, a 400 duplicate-name render, or a redirect on success. -/
inductive AddMedRes
  | validationError (msg : String)
  | duplicateError (msg : String)
  | redirect (target : String)
deriving DecidableEq, Repr

/-- Result of the add-medicine handler plus the medicines table afterwards
(unchanged when the handler returns before `writeSheet`). -/
structure AddMedOut where
  res : AddMedRes
  dawa : List Medicine
deriving DecidableEq, Repr

namespace VarA

/-- POST `/dawa/ongeza` of the strict xlsx variant (src/app.js 502-554).
`kiasi` is the value of `Number(req.body.kiasi)` with `none` for NaN; the
`isNaN`/`<= 0` checks and the blank checks after `trim()` mirror the source,
as do the reserved-name check for "aina" and the case-insensitive duplicate
lookup.  `freshId` stands for `nanoid()`, `nowIso` for the timestamp. -/
def postDawaOngeza (dawa : List Medicine) (jina aina : String) (kiasi : Option ℚ)
    (freshId nowIso : String) : AddMedOut :=
  if jsTrim jina = "" ∨ jsTrim aina = "" ∨ kiasi = none ∨ kiasi.getD 0 ≤ 0 then
    { res := AddMedRes.validationError "Tafadhali jaza taarifa zote sahihi", dawa := dawa }
  else if jsToLower (jsTrim jina) = "aina" then
    { res := AddMedRes.validationError "Jina \"aina\" haliruhusiwi. Tafadhali tumia jina lingine.",
      dawa := dawa }
  else if dawa.any (fun d => jsToLower d.jina == jsToLower (jsTrim jina)) then
    { res := AddMedRes.duplicateError
        ("Dawa yenye jina \"" ++ jsTrim jina ++ "\" tayari ipo kwenye mfumo."),
      dawa := dawa }
  else
    { res := AddMedRes.redirect "/?add=success",
      dawa := dawa ++ [{ id := freshId, jina := jsTrim jina, aina := jsTrim aina,
                         kiasi := kiasi.getD 0, UPDATED_AT := nowIso }] }

end VarA

/-- One add-medicine request of a sequence: the form fields plus the id and
timestamp the handler would generate for it. -/
structure AddReq where
  jina : String
  aina : String
  kiasi : Option ℚ
  freshId : String
  nowIso : String
deriving DecidableEq, Repr

/-- Folding a sequence of add-medicine requests through the strict handler,
recording whether any of them was rejected as a duplicate name. -/
def runAdds : List Medicine → List AddReq → List Medicine × Bool
  | dawa, [] => (dawa, false)
  | dawa, r :: rest =>
    let out := VarA.postDawaOngeza dawa r.jina r.aina r.kiasi r.freshId r.nowIso
    let isDup := match out.res with
      | AddMedRes.duplicateError _ => true
      | _ => false
    let next := runAdds out.dawa rest
    (next.fst, isDup || next.snd)

namespace LowDb

/-- POST `/dawa/ongeza` of the lowdb variant (src/app.js 102-135).  The
duplicate check there is `d.jina === jina`, an exact string comparison.
`kiasi` models `Number(req.body.kiasi)` (`none` for NaN; the raw `!kiasi`
check is absorbed because `Number('')` is 0, caught by `<= 0`). -/
def postDawaOngeza (dawa : List MedicineL) (jina aina : String) (kiasi : Option ℚ)
    (freshId : String) : AddMedRes × List MedicineL :=
  if jina = "" ∨ aina = "" ∨ kiasi = none ∨ kiasi.getD 0 ≤ 0 then
    (AddMedRes.validationError "Hakikisha umejaza sehemu zote na kiasi ni namba chanya", dawa)
  else if dawa.any (fun d => d.jina == jina) then
    (AddMedRes.duplicateError "Dawa yenye jina hili tayari ipo kwenye mfumo", dawa)
  else
    (AddMedRes.redirect "/",
     dawa ++ [{ id := freshId, jina := jina, aina := aina, kiasi := kiasi.getD 0 }])

end LowDb

/-! ## Add-user handler -/

/-- Outcome of POST `/mtumiaji/ongeza`: a re-render of the form with a
validation or duplicate message, or a redirect on success. -/
inductive AddUserRes
  | validationError (msg : String)
  | duplicateError (msg : String)
  | redirect
deriving DecidableEq, Repr

/-- Result of the add-user handler plus the users table afterwards. -/
structure AddUserOut where
  res : AddUserRes
  watumiaji : List User
deriving DecidableEq, Repr

namespace VarA

/-- POST `/mtumiaji/ongeza` (src/app.js 609-653).  The handler reads the
clinics table but only to re-render the form: the supplied `clinicId` is
checked for presence (`!clinicId`), never against the stored clinics. -/
def postMtumiajiOngeza (watumiaji : List User) (clinics : List Clinic)
    (jina description clinicId : String) (freshId : String) : AddUserOut :=
  if (jsTrim jina).length < 2 then
    { res := AddUserRes.validationError "Jina la mtumiaji linahitajika", watumiaji := watumiaji }
  else if clinicId = "" then
    { res := AddUserRes.validationError "Tafadhali chagua kliniki", watumiaji := watumiaji }
  else if watumiaji.any (fun w => jsToLower w.jina == jsTrim (jsToLower jina)) then
    { res := AddUserRes.duplicateError "Tayari kuna mtumiaji mwenye jina hili.",
      watumiaji := watumiaji }
  else
    { res := AddUserRes.redirect,
      watumiaji := watumiaji ++ [{ id := freshId, jina := jsTrim jina,
                                   maelezo := jsTrim description, clinicId := clinicId }] }

end VarA

/-! ## Usage recording (POST `/matumizi/sajili`, src/app.js 1696-1821) -/

/-- One line of the submitted `dawaList`: medicine id, the `confirmed`
flag (a form string), `parseInt(d.kiasi, 10)` with `none` for NaN, and an
optional explicit date (`none` when the field is absent or blank). -/
structure UsageLine where
  id : String
  confirmed : String
  kiasi : Option Int
  tarehe : Option Int
deriving DecidableEq, Repr

/-- A confirmed line after quantity validation. -/
structure ConfLine where
  id : String
  kiasi : Int
  tarehe : Option Int
deriving DecidableEq, Repr

/-- An itemized stock-check failure: unknown medicine id, or a request
exceeding the remaining stock of a medicine. -/
inductive StockIssue
  | missing (id : String)
  | insufficient (jina : String) (remaining : ℚ)
deriving DecidableEq, Repr

/-- Decimal rendering of a rational (denominator 1 in every reachable case). -/
def ratStr (q : ℚ) : String :=
  if q.den = 1 then toString q.num else toString q.num ++ "/" ++ toString q.den

/-- The message text the handler pushes for each stock-check failure. -/
def renderIssue : StockIssue → String
  | StockIssue.missing i => "Dawa ya " ++ i ++ " haipo kwenye mfumo"
  | StockIssue.insufficient j r => "Dawa ya " ++ j ++ " inabaki " ++ ratStr r ++ " pekee"

/-- The first loop of the handler: keep the lines whose `confirmed` flag is
the string "true", validating each parsed quantity, and collect the error
messages for unparseable or non-positive quantities. -/
def collectConfirmed : List UsageLine → List ConfLine × List String
  | [] => ([], [])
  | d :: rest =>
    let next := collectConfirmed rest
    if d.confirmed ≠ "true" then next
    else
      match d.kiasi with
      | none => (next.fst, ("Kiasi cha " ++ d.id ++ " si namba halali") :: next.snd)
      | some q =>
        if q ≤ 0 then (next.fst, ("Kiasi cha " ++ d.id ++ " kinaweza kuwa chini ya 1") :: next.snd)
        else ({ id := d.id, kiasi := q, tarehe := d.tarehe } :: next.fst, next.snd)

/-- Total recorded usage of one medicine:
`matumizi.filter(m => m.dawaId === id).reduce((s, m) => s + (Number(m.kiasi) || 0), 0)`. -/
def totalUsed (matumizi : List Usage) (did : String) : ℚ :=
  ((matumizi.filter (fun m => m.dawaId == did)).map (fun m => m.kiasi)).sum

/-- The stock-check loop: for each confirmed line, look the medicine up,
compute `remaining = kiasi - totalUsed`, and either record an itemized
failure or keep the line as a valid usage. -/
def stockCheck (allDawa : List Medicine) (existing : List Usage) :
    List ConfLine → List StockIssue × List ConfLine
  | [] => ([], [])
  | c :: rest =>
    let next := stockCheck allDawa existing rest
    match allDawa.find? (fun m => m.id == c.id) with
    | none => (StockIssue.missing c.id :: next.fst, next.snd)
    | some med =>
      let remaining := med.kiasi - totalUsed existing c.id
      if (c.kiasi : ℚ) > remaining then
        (StockIssue.insufficient med.jina remaining :: next.fst, next.snd)
      else
        (next.fst, c :: next.snd)

/-- Building the new usage events from the valid lines, numbering the
generated ids; `tarehe` falls back to the current timestamp when a line
carries none (`d.tarehe || new Date().toISOString()`). -/
def mkUsages (freshId : Nat → String) (mtumiajiId mtumiajiJina maelezo clinicId : String)
    (nowTs : Int) : Nat → List ConfLine → List Usage
  | _, [] => []
  | n, c :: rest =>
    { id := freshId n, dawaId := c.id, mtumiajiId := mtumiajiId,
      mtumiajiJina := mtumiajiJina, maelezo := maelezo, kiasi := (c.kiasi : ℚ),
      tarehe := some (c.tarehe.getD nowTs), clinicId := clinicId }
      :: mkUsages freshId mtumiajiId mtumiajiJina maelezo clinicId nowTs (n + 1) rest

/-- Outcome of POST `/matumizi/sajili`: the error renders of the source in
order, or the final redirect. -/
inductive SajiliRes
  | noUser
  | noList
  | quantityError (msgs : List String)
  | noConfirmed
  | stockError (issues : List StockIssue)
  | userMissing
  | redirect
deriving DecidableEq, Repr

/-- Result of the usage-recording handler plus the usage table afterwards
(unchanged unless the final `writeSheet` is reached). -/
structure SajiliOut where
  res : SajiliRes
  matumizi : List Usage
deriving DecidableEq, Repr

namespace VarB

/-- POST `/matumizi/sajili` (src/app.js 1696-1821): validate the batch,
check each confirmed line against remaining stock, fail the whole request on
any itemized issue, and otherwise append one usage event per valid line,
stamping the user's current clinic id (`'unknown'` when blank). -/
def postMatumiziSajili (allDawa : List Medicine) (watumiaji : List User)
    (existing : List Usage) (mtumiajiId : String) (dawaList : Option (List UsageLine))
    (freshId : Nat → String) (nowTs : Int) : SajiliOut :=
  if mtumiajiId = "" then { res := SajiliRes.noUser, matumizi := existing }
  else
    match dawaList with
    | none => { res := SajiliRes.noList, matumizi := existing }
    | some lines =>
      let collected := collectConfirmed lines
      if collected.snd ≠ [] then
        { res := SajiliRes.quantityError collected.snd, matumizi := existing }
      else if collected.fst = [] then
        { res := SajiliRes.noConfirmed, matumizi := existing }
      else
        let checked := stockCheck allDawa existing collected.fst
        if checked.fst ≠ [] then
          { res := SajiliRes.stockError checked.fst, matumizi := existing }
        else
          match watumiaji.find? (fun w => w.id == mtumiajiId) with
          | none => { res := SajiliRes.userMissing, matumizi := existing }
          | some mtumiaji =>
            let userClinicId := if mtumiaji.clinicId = "" then "unknown" else mtumiaji.clinicId
            { res := SajiliRes.redirect,
              matumizi := existing
                ++ mkUsages freshId mtumiajiId mtumiaji.jina mtumiaji.maelezo userClinicId
                     nowTs 0 checked.snd }

end VarB

/-! ## User transfer (POST `/mtumiaji/transfer`, src/app.js 1836-1859) -/

/-- Outcome of the transfer handler. -/
inductive TransferRes
  | validationError
  | notFound
  | redirect
deriving DecidableEq, Repr

/-- Result of the transfer handler plus the users table afterwards. -/
structure TransferOut where
  res : TransferRes
  watumiaji : List User
deriving DecidableEq, Repr

/-- The `findIndex` / assign step: set `clinicId` on the first user with the
given id, leaving everything else in place. -/
def updateFirst : List User → String → String → List User
  | [], _, _ => []
  | u :: rest, uid, cid =>
    if u.id = uid then { u with clinicId := cid } :: rest
    else u :: updateFirst rest uid cid

namespace VarB

/-- POST `/mtumiaji/transfer` (src/app.js 1836-1859): both fields required,
the user must exist, and the user's `clinicId` is overwritten in place
before the whole table is rewritten. -/
def postMtumiajiTransfer (watumiaji : List User) (mtumiajiId newClinicId : String) :
    TransferOut :=
  if mtumiajiId = "" ∨ newClinicId = "" then
    { res := TransferRes.validationError, watumiaji := watumiaji }
  else if watumiaji.any (fun u => u.id == mtumiajiId) then
    { res := TransferRes.redirect, watumiaji := updateFirst watumiaji mtumiajiId newClinicId }
  else
    { res := TransferRes.notFound, watumiaji := watumiaji }

end VarB

/-! ## Usage report (GET `/ripoti/matumizi`) -/

/-- One rendered line of the report: medicine name, quantity, formatted
time, clinic name. -/
structure ReportEntry where
  dawa : String
  kiasi : ℚ
  saa : String
  kliniki : String
deriving DecidableEq, Repr

/-- One user's section of the report: the user's name and the usage lines
grouped by formatted calendar day. -/
structure UserReport where
  jina : String
  matumiziByDate : List (String × List ReportEntry)
deriving DecidableEq, Repr

/-- Appending a value under a key in an object-as-multimap
(`if (!byDate[day]) byDate[day] = []; byDate[day].push(entry)`). -/
def insGroup {β : Type} : List (String × List β) → String → β → List (String × List β)
  | [], k, b => [(k, [b])]
  | (k', bs) :: rest, k, b =>
    if k' = k then (k', bs ++ [b]) :: rest else (k', bs) :: insGroup rest k b

/-- Reading a key of the grouped object (`byDate[day]`, absent keys give no
lines). -/
def lookupGroup {β : Type} (g : List (String × List β)) (k : String) : List β :=
  match g.find? (fun p => p.fst == k) with
  | some p => p.snd
  | none => []

/-- The clinic-name map `clinics.reduce((acc, c) => {acc[c.id] = c.jina}, {})`
with the report's `|| 'Haijulikani'` fallback: last write wins, and a blank
name also falls back. -/
def clinicNameOf (clinics : List Clinic) (cid : String) : String :=
  match clinics.reverse.find? (fun c => c.id == cid) with
  | some c => if c.jina = "" then "Haijulikani" else c.jina
  | none => "Haijulikani"

/-- Whether a usage event's parsed date lies in the closed range; an
unparseable date compares false on both bounds, as NaN does. -/
def inRange (s e : Int) (u : Usage) : Bool :=
  match u.tarehe with
  | some t => decide (s ≤ t) && decide (t ≤ e)
  | none => false

/-- The formatted-day key of a usage event (`formatDate(usage.tarehe)`);
`fmtDay` stands for the locale rendering of a valid date. -/
def fmtDayOf (fmtDay : Int → String) (u : Usage) : String :=
  match u.tarehe with
  | some t => fmtDay t
  | none => "Tarehe haijulikani"

/-- One rendered line (`{dawa, kiasi, saa, kliniki}`) of the report body;
`fmtTime` stands for the locale time rendering. -/
def entryOf (dawa : List Medicine) (clinics : List Clinic) (fmtTime : Int → String)
    (u : Usage) : ReportEntry :=
  { dawa := match dawa.find? (fun d => d.id == u.dawaId) with
            | some d => d.jina
            | none => "Haijulikani"
  , kiasi := u.kiasi
  , saa := match u.tarehe with
           | some t => fmtTime t
           | none => "--:--"
  , kliniki := clinicNameOf clinics u.clinicId }

/-- The report body shared by both report handlers: one section per stored
user, the user's filtered events grouped by formatted day in event order. -/
def reportRows (fmtDay fmtTime : Int → String) (watumiaji : List User)
    (dawa : List Medicine) (clinics : List Clinic) (filtered : List Usage) :
    List UserReport :=
  watumiaji.map (fun user =>
    { jina := user.jina
    , matumiziByDate :=
        (filtered.filter (fun m => m.mtumiajiId == user.id)).foldl
          (fun g u => insGroup g (fmtDayOf fmtDay u) (entryOf dawa clinics fmtTime u)) [] })

namespace VarB

/-- GET `/ripoti/matumizi` with `mode = 'month'` (src/app.js 1862-1970):
`monthStart` and `monthEnd` stand for the first and last day of the current
month as the handler computes them from the clock; events are filtered to
the closed range and then grouped per user and per formatted day. -/
def ripotiMatumiziMonth (monthStart monthEnd : Int) (fmtDay fmtTime : Int → String)
    (watumiaji : List User) (dawa : List Medicine) (matumizi : List Usage)
    (clinics : List Clinic) : List UserReport :=
  reportRows fmtDay fmtTime watumiaji dawa clinics
    (matumizi.filter (inRange monthStart monthEnd))

end VarB

namespace VarA

/-- The date-range selection of the other report variant (src/app.js
1196-1229): every mode, including 'month', reads explicit `from`/`to`
query fields, and no range at all is selected when they are absent.
`startOfDay`/`endOfDay` stand for `setHours(0,0,0,0)`/`setHours(23,59,59,999)`. -/
def selectRange (startOfDay endOfDay : Int → Int) (mode : String)
    (fromT toT : Option Int) : Option (Int × Int) :=
  match mode, fromT, toT with
  | "day", some f, _ => some (startOfDay f, endOfDay f)
  | "week", some f, some t => some (startOfDay f, endOfDay t)
  | "month", some f, some t => some (startOfDay f, endOfDay t)
  | _, some f, some t => some (startOfDay f, endOfDay t)
  | _, _, _ => none

/-- GET `/ripoti/matumizi` of the first xlsx variant (src/app.js 1180-1324):
filter only when a range was selected, then group as in the other variant. -/
def ripotiMatumizi (startOfDay endOfDay : Int → Int) (fmtDay fmtTime : Int → String)
    (mode : String) (fromT toT : Option Int) (watumiaji : List User)
    (dawa : List Medicine) (matumizi : List Usage) (clinics : List Clinic) :
    List UserReport :=
  let filtered := match selectRange startOfDay endOfDay mode fromT toT with
    | none => matumizi
    | some (s, e) => matumizi.filter (inRange s e)
  reportRows fmtDay fmtTime watumiaji dawa clinics filtered

end VarA

/-! ## Delete user -/

/-- Modelled from the spec: no delete-user route exists anywhere under src/,
so `deleteUser` follows §4.2 of the specification verbatim — it fails with
`NotFoundError` when no user carries the id, otherwise removes that user's
row and leaves the usage-event table untouched. -/
def deleteUser (watumiaji : List User) (matumizi : List Usage) (userId : String) :
    Except String (List User × List Usage) :=
  if watumiaji.any (fun u => u.id == userId) then
    Except.ok (watumiaji.filter (fun u => u.id ≠ userId), matumizi)
  else
    Except.error "NotFoundError"

end MfumoDawa

namespace MfumoDawa

/-! ## Lemmas about the tabular store -/

theorem normVal_falsy (o : Option Value) (h : (normVal o).falsy = true) :
    normVal o = Value.str "" := by
  unfold normVal at *
  cases o with
  | none => rfl
  | some v =>
    by_cases hv : v.falsy = true
    · simp [hv]
    · simp only [hv, if_false] at h ⊢
      simp [hv] at h

theorem normVal_idem (o : Option Value) : normVal (some (normVal o)) = normVal o := by
  by_cases h : (normVal o).falsy = true
  · rw [normVal_falsy o h]
    rfl
  · have hstep : normVal (some (normVal o))
        = if (normVal o).falsy = true then Value.str "" else normVal o := rfl
    rw [hstep, if_neg h]

theorem find?_map_headers (hs : List String) (f : String → Value) (h : String) :
    (hs.map (fun h' => (h', f h'))).find? (fun p => p.fst == h)
      = if h ∈ hs then some (h, f h) else none := by
  induction hs with
  | nil => simp [List.find?]
  | cons h0 rest ih =>
    by_cases he : h0 = h
    · subst he
      simp [List.find?]
    · simp only [List.map, List.find?]
      have : (h0 == h) = false := by simp [he]
      rw [this]
      simp only [ih]
      by_cases hm : h ∈ rest
      · simp [hm, he, Ne.symm he]
      · simp [hm, he, Ne.symm he]

theorem getField_mapRow (hs : List String) (g : String → Value) (h : String) :
    getField (hs.map (fun h' => (h', g h'))) h
      = if h ∈ hs then some (g h) else none := by
  unfold getField
  rw [find?_map_headers]
  by_cases hm : h ∈ hs <;> simp [hm]

theorem getField_writeRow (config : SheetConfig) (r : Record) (h : String) :
    getField (writeRow config r) h
      = if h ∈ config.headers then some (getOrEmpty r h) else none :=
  getField_mapRow config.headers (getOrEmpty r) h

theorem map_fst_mapRow (hs : List String) (g : String → Value) :
    (hs.map (fun h => (h, g h))).map Prod.fst = hs := by
  induction hs with
  | nil => rfl
  | cons a t ih => simp [ih]

theorem getOrEmpty_idem (config : SheetConfig) (r : Record) (h : String)
    (hm : h ∈ config.headers) :
    getOrEmpty (writeRow config r) h = getOrEmpty r h := by
  unfold getOrEmpty
  rw [getField_writeRow, if_pos hm]
  exact normVal_idem (getField r h)

theorem writeRow_idem (config : SheetConfig) (r : Record) :
    writeRow config (writeRow config r) = writeRow config r := by
  unfold writeRow
  apply List.map_congr_left
  intro h hm
  exact congrArg (fun v => (h, v)) (getOrEmpty_idem config r h hm)

theorem readSheet_eq_of_sheet (wb : Workbook) (config : SheetConfig) (s : Sheet)
    (hs : wb config.name = some s) :
    readSheet (some wb) config
      = s.rows.map (fun row => (effHeaders s config).map (fun h => (h, getOrEmpty row h))) := by
  unfold readSheet readSheetE
  dsimp only
  rw [hs]

theorem readSheet_writeSheet (wb : Workbook) (config : SheetConfig) (data : List Record) :
    readSheet (writeSheet (some wb) config data).fst config = data.map (writeRow config) := by
  have hs : (updateWb wb config.name
      { headerRow := config.headers, rows := data.map (writeRow config) }) config.name
      = some { headerRow := config.headers, rows := data.map (writeRow config) } := by
    unfold updateWb
    simp
  have hread := readSheet_eq_of_sheet _ config _ hs
  have hfst : (writeSheet (some wb) config data).fst
      = some (updateWb wb config.name
          { headerRow := config.headers, rows := data.map (writeRow config) }) := rfl
  rw [hfst, hread]
  have heff : effHeaders { headerRow := config.headers, rows := data.map (writeRow config) } config
      = config.headers := by
    unfold effHeaders
    exact ite_self config.headers
  rw [heff, List.map_map]
  apply List.map_congr_left
  intro r _
  show writeRow config (writeRow config r) = writeRow config r
  exact writeRow_idem config r

theorem readSheet_map_writeRow_self (wb : Workbook) (config : SheetConfig)
    (hhdr : ∀ s, wb config.name = some s → effHeaders s config = config.headers) :
    (readSheet (some wb) config).map (writeRow config) = readSheet (some wb) config := by
  cases hw : wb config.name with
  | none =>
    have : readSheet (some wb) config = [] := by
      unfold readSheet readSheetE
      dsimp only
      rw [hw]
    rw [this]
    rfl
  | some s =>
    rw [readSheet_eq_of_sheet wb config s hw, hhdr s hw, List.map_map]
    apply List.map_congr_left
    intro r _
    show writeRow config (writeRow config r) = writeRow config r
    exact writeRow_idem config r

/-! ## Claim theorems about the tabular store -/

/-- C6: `readTable` never propagates an error.  When the backing file is
missing or unreadable, or the named sheet is absent, `readSheet` returns the
empty list; and whenever the underlying read raises an error at all, the
catch handler degrades it to the empty list. -/
theorem readSheet_never_fails (file : Option Workbook) (config : SheetConfig) :
    (file = none → readSheet file config = [])
    ∧ (∀ wb, file = some wb → wb config.name = none → readSheet file config = [])
    ∧ (∀ e, readSheetE file config = Except.error e → readSheet file config = []) := by
  refine ⟨?_, ?_, ?_⟩
  · intro h
    subst h
    rfl
  · intro wb h hnone
    subst h
    unfold readSheet readSheetE
    dsimp only
    rw [hnone]
  · intro e he
    unfold readSheet
    rw [he]

theorem readSheet_never_fails_witness :
    readSheet none SHEETS_DAWA = []
    ∧ readSheet (some (fun _ => none)) SHEETS_DAWA = [] :=
  ⟨(readSheet_never_fails none SHEETS_DAWA).1 rfl,
   (readSheet_never_fails (some (fun _ => none)) SHEETS_DAWA).2.1 (fun _ => none) rfl rfl⟩

/-- C10: every record returned by `readSheet` has exactly the effective
header columns as keys, and a cell that is absent or falsy (including the
number 0) is returned as the empty string. -/
theorem readSheet_header_keys_and_falsy (wb : Workbook) (config : SheetConfig) (s : Sheet)
    (hs : wb config.name = some s) :
    (∀ rec ∈ readSheet (some wb) config, rec.map Prod.fst = effHeaders s config)
    ∧ List.Forall₂ (fun row rec => ∀ h : String,
        getField rec h = if h ∈ effHeaders s config then some (getOrEmpty row h) else none)
        s.rows (readSheet (some wb) config)
    ∧ (∀ (r : Record) (h : String), getField r h = some (Value.num 0) →
        getOrEmpty r h = Value.str "")
    ∧ (∀ (r : Record) (h : String), getField r h = none → getOrEmpty r h = Value.str "")
    ∧ (∀ (r : Record) (h : String) (v : Value), getField r h = some v → v.falsy = true →
        getOrEmpty r h = Value.str "") := by
  rw [readSheet_eq_of_sheet wb config s hs]
  refine ⟨?_, ?_, ?_, ?_, ?_⟩
  · intro rec hrec
    obtain ⟨row, _, hrow⟩ := List.mem_map.mp hrec
    subst hrow
    exact map_fst_mapRow (effHeaders s config) (getOrEmpty row)
  · rw [List.forall₂_map_right_iff]
    rw [List.forall₂_same]
    intro row _ h
    exact getField_mapRow (effHeaders s config) (getOrEmpty row) h
  · intro r h hf
    unfold getOrEmpty
    rw [hf]
    rfl
  · intro r h hf
    unfold getOrEmpty
    rw [hf]
    rfl
  · intro r h v hf hv
    unfold getOrEmpty normVal
    rw [hf]
    simp [hv]

theorem readSheet_header_keys_and_falsy_witness :
    getOrEmpty [("kiasi", Value.num 0)] "kiasi" = Value.str "" :=
  (readSheet_header_keys_and_falsy (fun _ => some { headerRow := [], rows := [] })
    SHEETS_DAWA { headerRow := [], rows := [] } rfl).2.2.1 [("kiasi", Value.num 0)] "kiasi" rfl

/-- C3 counterexample: appending a record holding the number 0 in a cell and
reading the table back does not return the record as written; the 0 cell
comes back as the empty string.  Here the table is initially empty, so the
claimed round-trip result would be exactly the appended record. -/
theorem append_read_falsy_not_roundtrip :
    readSheet (appendTable
        (some (fun n => if n = "Dawa" then some { headerRow := SHEETS_DAWA.headers, rows := [] } else none))
        SHEETS_DAWA
        [[("id", Value.str "m1"), ("jina", Value.str "Panadol"), ("aina", Value.str "pain"),
          ("kiasi", Value.num 0), ("UPDATED_AT", Value.str "2024-01-01")]]).fst SHEETS_DAWA
      ≠ [[("id", Value.str "m1"), ("jina", Value.str "Panadol"), ("aina", Value.str "pain"),
          ("kiasi", Value.num 0), ("UPDATED_AT", Value.str "2024-01-01")]] := by
  decide

/-- C3 (amended): `appendTable` followed by `readTable` returns the
previously stored records followed by the appended records in append order,
where each appended record is serialized to the table's declared columns
with falsy cells replaced by the empty string; in particular the round-trip
is exact for records whose cells are all truthy and whose keys are the
declared columns.  The stored sheet's header row is assumed to agree with
the declared one (or to be absent), as `initializeDatabase` guarantees. -/
theorem appendTable_readTable_roundtrip (wb : Workbook) (config : SheetConfig)
    (newRecords : List Record)
    (hhdr : ∀ s, wb config.name = some s → effHeaders s config = config.headers) :
    readSheet (appendTable (some wb) config newRecords).fst config
      = readSheet (some wb) config ++ newRecords.map (writeRow config)
    ∧ ((∀ r ∈ newRecords, writeRow config r = r) →
        readSheet (appendTable (some wb) config newRecords).fst config
          = readSheet (some wb) config ++ newRecords) := by
  have hmain : readSheet (appendTable (some wb) config newRecords).fst config
      = readSheet (some wb) config ++ newRecords.map (writeRow config) := by
    unfold appendTable
    rw [readSheet_writeSheet, List.map_append, readSheet_map_writeRow_self wb config hhdr]
  refine ⟨hmain, ?_⟩
  intro hclean
  rw [hmain]
  congr 1
  exact List.map_congr_left hclean |>.trans (List.map_id _)

theorem appendTable_readTable_roundtrip_witness :
    readSheet (appendTable
        (some (fun n => if n = "Clinics" then some { headerRow := SHEETS_CLINICS.headers, rows := [] } else none))
        SHEETS_CLINICS [[("id", Value.str "C005"), ("jina", Value.str "Mpya")]]).fst SHEETS_CLINICS
      = readSheet (some (fun n => if n = "Clinics" then some { headerRow := SHEETS_CLINICS.headers, rows := [] } else none))
          SHEETS_CLINICS ++ [[("id", Value.str "C005"), ("jina", Value.str "Mpya")]] :=
  (appendTable_readTable_roundtrip
      (fun n => if n = "Clinics" then some { headerRow := SHEETS_CLINICS.headers, rows := [] } else none)
      SHEETS_CLINICS [[("id", Value.str "C005"), ("jina", Value.str "Mpya")]]
      (fun s hs => by
        have hs' : some ({ headerRow := SHEETS_CLINICS.headers, rows := [] } : Sheet) = some s := hs
        cases hs'
        decide)).2
    (by decide)

/-! ## Lemmas about the add-medicine handlers -/

theorem postDawaOngeza_mem_dawa (dawa : List Medicine) (j a : String) (k : Option ℚ)
    (f n : String) :
    ∀ d ∈ (VarA.postDawaOngeza dawa j a k f n).dawa, d ∈ dawa ∨ d.jina = jsTrim j := by
  unfold VarA.postDawaOngeza
  split_ifs with h1 h2 h3
  · exact fun d hd => Or.inl hd
  · exact fun d hd => Or.inl hd
  · exact fun d hd => Or.inl hd
  · intro d hd
    rcases List.mem_append.mp hd with hin | hnew
    · exact Or.inl hin
    · right
      rw [List.mem_singleton] at hnew
      subst hnew
      rfl

theorem postDawaOngeza_dup_implies (dawa : List Medicine) (j a : String) (k : Option ℚ)
    (f n : String) (m : String)
    (h : (VarA.postDawaOngeza dawa j a k f n).res = AddMedRes.duplicateError m) :
    ∃ d ∈ dawa, jsToLower d.jina = jsToLower (jsTrim j) := by
  unfold VarA.postDawaOngeza at h
  split_ifs at h with h1 h2 h3
  obtain ⟨d, hd, hbeq⟩ := List.any_eq_true.mp h3
  exact ⟨d, hd, by simpa using hbeq⟩

theorem runAdds_no_dup (reqs : List AddReq) : ∀ dawa : List Medicine,
    (∀ r ∈ reqs, ∀ d ∈ dawa, jsToLower d.jina ≠ jsToLower (jsTrim r.jina)) →
    (reqs.map (fun r => jsToLower (jsTrim r.jina))).Nodup →
    (runAdds dawa reqs).snd = false := by
  induction reqs with
  | nil =>
    intro dawa _ _
    rfl
  | cons r rest ih =>
    intro dawa hsep hnodup
    show ((match (VarA.postDawaOngeza dawa r.jina r.aina r.kiasi r.freshId r.nowIso).res with
           | AddMedRes.duplicateError _ => true
           | _ => false)
          || (runAdds (VarA.postDawaOngeza dawa r.jina r.aina r.kiasi r.freshId r.nowIso).dawa rest).snd)
        = false
    have hnd : ∀ d ∈ dawa, jsToLower d.jina ≠ jsToLower (jsTrim r.jina) :=
      hsep r (List.mem_cons_self r rest)
    have hdupf : (match (VarA.postDawaOngeza dawa r.jina r.aina r.kiasi r.freshId r.nowIso).res with
        | AddMedRes.duplicateError _ => true
        | _ => false) = false := by
      cases hres : (VarA.postDawaOngeza dawa r.jina r.aina r.kiasi r.freshId r.nowIso).res with
      | duplicateError m =>
        obtain ⟨d, hd, heq⟩ := postDawaOngeza_dup_implies dawa r.jina r.aina r.kiasi
          r.freshId r.nowIso m hres
        exact absurd heq (hnd d hd)
      | validationError m => rfl
      | redirect t => rfl
    rw [hdupf, Bool.false_or]
    have hnodup' := (List.nodup_cons.mp hnodup)
    apply ih
    · intro r' hr' d hd
      rcases postDawaOngeza_mem_dawa dawa r.jina r.aina r.kiasi r.freshId r.nowIso d hd with
        hin | hnew
      · exact hsep r' (List.mem_cons_of_mem r hr') d hin
      · rw [hnew]
        intro hcontra
        have hmem : jsToLower (jsTrim r.jina) ∈ rest.map (fun r => jsToLower (jsTrim r.jina)) := by
          rw [hcontra]
          exact List.mem_map.mpr ⟨r', hr', rfl⟩
        exact hnodup'.1 hmem
    · exact hnodup'.2

/-! ## Claim theorems about the domain handlers (part 1) -/

/-- C2 counterexample: in the lowdb variant the duplicate check compares
names exactly, so a name differing from a stored one only in letter case is
accepted and appended instead of raising a duplicate-name error. -/
theorem lowdb_duplicate_check_case_sensitive :
    ("panadol" ≠ "Panadol" ∧ jsToLower "panadol" = jsToLower "Panadol")
    ∧ (LowDb.postDawaOngeza [{ id := "m1", jina := "Panadol", aina := "maumivu", kiasi := 10 }]
        "panadol" "maumivu" (some 5) "m2").fst = AddMedRes.redirect "/"
    ∧ (LowDb.postDawaOngeza [{ id := "m1", jina := "Panadol", aina := "maumivu", kiasi := 10 }]
        "panadol" "maumivu" (some 5) "m2").snd
      = [{ id := "m1", jina := "Panadol", aina := "maumivu", kiasi := 10 },
         { id := "m2", jina := "panadol", aina := "maumivu", kiasi := 5 }] := by
  refine ⟨⟨by decide, by decide⟩, by decide, by decide⟩

/-- C2 (amended): in the strict xlsx variant, a sequence of add-medicine
calls whose trimmed names are pairwise distinct case-insensitively never
raises a duplicate-name error, and a call whose (trimmed) name matches a
stored name case-insensitively always fails with the duplicate error and
leaves the table unchanged; the lowdb variant compares names exactly and the
minimal variant has no duplicate check at all. -/
theorem addMedicine_duplicate_name_policy :
    (∀ reqs : List AddReq, (reqs.map (fun r => jsToLower (jsTrim r.jina))).Nodup →
       (runAdds [] reqs).snd = false)
    ∧ (∀ (dawa : List Medicine) (d : Medicine) (jina aina : String) (q : ℚ)
         (freshId nowIso : String),
        d ∈ dawa → jsTrim jina ≠ "" → jsTrim aina ≠ "" → 0 < q →
        jsToLower (jsTrim jina) ≠ "aina" →
        jsToLower (jsTrim jina) = jsToLower d.jina →
        (∃ m, (VarA.postDawaOngeza dawa jina aina (some q) freshId nowIso).res
                = AddMedRes.duplicateError m)
        ∧ (VarA.postDawaOngeza dawa jina aina (some q) freshId nowIso).dawa = dawa) := by
  constructor
  · intro reqs hnodup
    exact runAdds_no_dup reqs [] (by intro r _ d hd; exact absurd hd (List.not_mem_nil d)) hnodup
  · intro dawa d jina aina q freshId nowIso hd hj ha hq haina hcase
    have hv : ¬(jsTrim jina = "" ∨ jsTrim aina = "" ∨ (some q : Option ℚ) = none ∨
        (some q : Option ℚ).getD 0 ≤ 0) := by
      push_neg
      exact ⟨hj, ha, by simp, by simpa using hq⟩
    have hdup : dawa.any (fun d' => jsToLower d'.jina == jsToLower (jsTrim jina)) = true :=
      List.any_eq_true.mpr ⟨d, hd, by simp [hcase]⟩
    unfold VarA.postDawaOngeza
    rw [if_neg hv, if_neg haina, if_pos hdup]
    exact ⟨⟨_, rfl⟩, rfl⟩

theorem addMedicine_duplicate_name_policy_witness :
    (runAdds [] [{ jina := "Panadol", aina := "maumivu", kiasi := some 10, freshId := "m1", nowIso := "t" },
                 { jina := "Aspirin", aina := "maumivu", kiasi := some 5, freshId := "m2", nowIso := "t" }]).snd
      = false
    ∧ ((∃ m, (VarA.postDawaOngeza
          [{ id := "m1", jina := "Panadol", aina := "maumivu", kiasi := 10, UPDATED_AT := "t" }]
          "PANADOL" "maumivu" (some 4) "m2" "t").res = AddMedRes.duplicateError m)
       ∧ (VarA.postDawaOngeza
          [{ id := "m1", jina := "Panadol", aina := "maumivu", kiasi := 10, UPDATED_AT := "t" }]
          "PANADOL" "maumivu" (some 4) "m2" "t").dawa
         = [{ id := "m1", jina := "Panadol", aina := "maumivu", kiasi := 10, UPDATED_AT := "t" }]) :=
  ⟨addMedicine_duplicate_name_policy.1 _ (by decide),
   addMedicine_duplicate_name_policy.2
     [{ id := "m1", jina := "Panadol", aina := "maumivu", kiasi := 10, UPDATED_AT := "t" }]
     { id := "m1", jina := "Panadol", aina := "maumivu", kiasi := 10, UPDATED_AT := "t" }
     "PANADOL" "maumivu" 4 "m2" "t"
     (by decide) (by decide) (by decide) (by decide) (by decide) (by decide)⟩

/-- C7 counterexample: adding a user whose `clinicId` matches no stored
clinic succeeds and appends the row; the handler never checks the clinics
table. -/
theorem addUser_accepts_unknown_clinic :
    (VarA.postMtumiajiOngeza [] [{ id := "C001", jina := "Kisiwani" }] "Juma" "" "C999" "u1").res
        = AddUserRes.redirect
    ∧ (VarA.postMtumiajiOngeza [] [{ id := "C001", jina := "Kisiwani" }] "Juma" "" "C999" "u1").watumiaji
        = [{ id := "u1", jina := "Juma", maelezo := "", clinicId := "C999" }]
    ∧ "C999" ∉ ([{ id := "C001", jina := "Kisiwani" }] : List Clinic).map Clinic.id := by
  refine ⟨by decide, by decide, by decide⟩

/-- C7 (amended): the add-user handler rejects only a short trimmed name, an
empty `clinicId`, or a case-insensitive duplicate name; a row is appended
exactly in the remaining case, with the supplied `clinicId` stamped as-is,
whether or not it references a stored clinic. -/
theorem addUser_clinic_check (watumiaji : List User) (clinics : List Clinic)
    (jina description clinicId freshId : String) :
    ((VarA.postMtumiajiOngeza watumiaji clinics jina description clinicId freshId).res
        = AddUserRes.redirect
      ↔ 2 ≤ (jsTrim jina).length ∧ clinicId ≠ ""
        ∧ ∀ w ∈ watumiaji, jsToLower w.jina ≠ jsTrim (jsToLower jina))
    ∧ ((VarA.postMtumiajiOngeza watumiaji clinics jina description clinicId freshId).res
        = AddUserRes.redirect →
        (VarA.postMtumiajiOngeza watumiaji clinics jina description clinicId freshId).watumiaji
          = watumiaji ++ [{ id := freshId, jina := jsTrim jina, maelezo := jsTrim description,
                            clinicId := clinicId }])
    ∧ ((VarA.postMtumiajiOngeza watumiaji clinics jina description clinicId freshId).res
        ≠ AddUserRes.redirect →
        (VarA.postMtumiajiOngeza watumiaji clinics jina description clinicId freshId).watumiaji
          = watumiaji) := by
  unfold VarA.postMtumiajiOngeza
  split_ifs with h1 h2 h3
  · refine ⟨?_, ?_, ?_⟩
    · constructor
      · intro h
        exact absurd h (by simp)
      · rintro ⟨hlen, -, -⟩
        omega
    · intro h
      exact absurd h (by simp)
    · intro _
      rfl
  · refine ⟨?_, ?_, ?_⟩
    · constructor
      · intro h
        exact absurd h (by simp)
      · rintro ⟨-, hcid, -⟩
        exact absurd h2 hcid
    · intro h
      exact absurd h (by simp)
    · intro _
      rfl
  · refine ⟨?_, ?_, ?_⟩
    · constructor
      · intro h
        exact absurd h (by simp)
      · rintro ⟨-, -, hall⟩
        obtain ⟨w, hw, hbeq⟩ := List.any_eq_true.mp h3
        exact absurd (by simpa using hbeq) (hall w hw)
    · intro h
      exact absurd h (by simp)
    · intro _
      rfl
  · refine ⟨?_, ?_, ?_⟩
    · constructor
      · intro _
        refine ⟨by omega, h2, ?_⟩
        intro w hw hcontra
        exact h3 (List.any_eq_true.mpr ⟨w, hw, by simpa using hcontra⟩)
      · intro _
        rfl
    · intro _
      rfl
    · intro h
      exact absurd rfl h

theorem addUser_clinic_check_witness :
    (VarA.postMtumiajiOngeza [] [] "Asha" "maelezo" "C002" "u7").res = AddUserRes.redirect
    ∧ (VarA.postMtumiajiOngeza [] [] "Asha" "maelezo" "C002" "u7").watumiaji
        = [{ id := "u7", jina := "Asha", maelezo := "maelezo", clinicId := "C002" }] :=
  ⟨(addUser_clinic_check [] [] "Asha" "maelezo" "C002" "u7").1.mpr
     ⟨by decide, by decide, by intro w hw _; exact absurd hw (List.not_mem_nil w)⟩,
   (addUser_clinic_check [] [] "Asha" "maelezo" "C002" "u7").2.1
     ((addUser_clinic_check [] [] "Asha" "maelezo" "C002" "u7").1.mpr
       ⟨by decide, by decide, by intro w hw _; exact absurd hw (List.not_mem_nil w)⟩)⟩

/-- C8 counterexample: a quantity of 5/2 (denominator 2, so not a positive
integer) is accepted and appended rather than rejected, and conversely the
name "Aina" is rejected with a validation error although its quantity 3 is a
positive integer and neither name nor category is blank. -/
theorem addMedicine_accepts_noninteger_quantity :
    ((VarA.postDawaOngeza [] "Aspirin" "maumivu" (some (5 / 2)) "m1" "2024").res
        = AddMedRes.redirect "/?add=success"
      ∧ ((5 : ℚ) / 2).den = 2)
    ∧ (VarA.postDawaOngeza [] "Aina" "maumivu" (some 3) "m1" "2024").res
        = AddMedRes.validationError "Jina \"aina\" haliruhusiwi. Tafadhali tumia jina lingine." := by
  refine ⟨⟨?_, by norm_num⟩, by decide⟩
  have h1 : ¬(jsTrim "Aspirin" = "" ∨ jsTrim "maumivu" = ""
      ∨ (some ((5 : ℚ) / 2) : Option ℚ) = none ∨ (some ((5 : ℚ) / 2) : Option ℚ).getD 0 ≤ 0) := by
    push_neg
    refine ⟨by decide, by decide, by simp, ?_⟩
    show (0 : ℚ) < (5 : ℚ) / 2
    norm_num
  have h2 : ¬ jsToLower (jsTrim "Aspirin") = "aina" := by decide
  have h3 : ¬ (([] : List Medicine).any
      (fun d => jsToLower d.jina == jsToLower (jsTrim "Aspirin"))) = true := by simp
  unfold VarA.postDawaOngeza
  rw [if_neg h1, if_neg h2, if_neg h3]

/-- C8 (amended): the handler raises a validation error exactly when the
quantity is NaN or non-positive, the trimmed name or category is blank, or
the trimmed name is the reserved word "aina" case-insensitively — any
positive number is accepted, integer or not; otherwise, absent a
case-insensitive duplicate, it appends a new Medicine carrying the freshly
generated id, which keeps the id column duplicate-free whenever the new id
is new. -/
theorem addMedicine_validation_exact (dawa : List Medicine) (jina aina : String)
    (kiasi : Option ℚ) (freshId nowIso : String) :
    ((∃ m, (VarA.postDawaOngeza dawa jina aina kiasi freshId nowIso).res
        = AddMedRes.validationError m)
      ↔ (jsTrim jina = "" ∨ jsTrim aina = "" ∨ kiasi = none ∨ kiasi.getD 0 ≤ 0
          ∨ jsToLower (jsTrim jina) = "aina"))
    ∧ (¬(jsTrim jina = "" ∨ jsTrim aina = "" ∨ kiasi = none ∨ kiasi.getD 0 ≤ 0) →
        jsToLower (jsTrim jina) ≠ "aina" →
        (∀ d ∈ dawa, jsToLower d.jina ≠ jsToLower (jsTrim jina)) →
        (VarA.postDawaOngeza dawa jina aina kiasi freshId nowIso).res
            = AddMedRes.redirect "/?add=success"
        ∧ (VarA.postDawaOngeza dawa jina aina kiasi freshId nowIso).dawa
            = dawa ++ [{ id := freshId, jina := jsTrim jina, aina := jsTrim aina,
                         kiasi := kiasi.getD 0, UPDATED_AT := nowIso }])
    ∧ (freshId ∉ dawa.map Medicine.id → (dawa.map Medicine.id).Nodup →
        ¬(jsTrim jina = "" ∨ jsTrim aina = "" ∨ kiasi = none ∨ kiasi.getD 0 ≤ 0) →
        jsToLower (jsTrim jina) ≠ "aina" →
        (∀ d ∈ dawa, jsToLower d.jina ≠ jsToLower (jsTrim jina)) →
        (((VarA.postDawaOngeza dawa jina aina kiasi freshId nowIso).dawa).map Medicine.id).Nodup) := by
  have hnodup : ∀ (hfresh : freshId ∉ dawa.map Medicine.id) (hnd : (dawa.map Medicine.id).Nodup),
      ((dawa ++ [{ id := freshId, jina := jsTrim jina, aina := jsTrim aina,
                   kiasi := kiasi.getD 0, UPDATED_AT := nowIso : Medicine }]).map Medicine.id).Nodup := by
    intro hfresh hnd
    rw [List.map_append, List.nodup_append]
    refine ⟨hnd, List.nodup_singleton _, ?_⟩
    intro x hx hx'
    rw [List.map_singleton, List.mem_singleton] at hx'
    subst hx'
    exact hfresh hx
  unfold VarA.postDawaOngeza
  split_ifs with h1 h2 h3
  · refine ⟨?_, ?_, ?_⟩
    · constructor
      · intro _
        tauto
      · intro _
        exact ⟨_, rfl⟩
    · intro hv
      exact absurd h1 hv
    · intro _ _ hv
      exact absurd h1 hv
  · refine ⟨?_, ?_, ?_⟩
    · constructor
      · intro _
        tauto
      · intro _
        exact ⟨_, rfl⟩
    · intro _ ha
      exact absurd h2 ha
    · intro _ _ _ ha
      exact absurd h2 ha
  · refine ⟨?_, ?_, ?_⟩
    · constructor
      · rintro ⟨m, hm⟩
        exact absurd hm (by simp)
      · intro hvc
        rcases hvc with hv | hv | hv | hv | hv
        all_goals first
          | exact absurd (Or.inl hv) h1
          | exact absurd (Or.inr (Or.inl hv)) h1
          | exact absurd (Or.inr (Or.inr (Or.inl hv))) h1
          | exact absurd (Or.inr (Or.inr (Or.inr hv))) h1
          | exact absurd hv h2
    · intro _ _ hall
      obtain ⟨d, hd, hbeq⟩ := List.any_eq_true.mp h3
      exact absurd (by simpa using hbeq) (hall d hd)
    · intro _ _ _ _ hall
      obtain ⟨d, hd, hbeq⟩ := List.any_eq_true.mp h3
      exact absurd (by simpa using hbeq) (hall d hd)
  · refine ⟨?_, ?_, ?_⟩
    · constructor
      · rintro ⟨m, hm⟩
        exact absurd hm (by simp)
      · intro hvc
        rcases hvc with hv | hv | hv | hv | hv
        all_goals first
          | exact absurd (Or.inl hv) h1
          | exact absurd (Or.inr (Or.inl hv)) h1
          | exact absurd (Or.inr (Or.inr (Or.inl hv))) h1
          | exact absurd (Or.inr (Or.inr (Or.inr hv))) h1
          | exact absurd hv h2
    · intro _ _ _
      exact ⟨rfl, rfl⟩
    · intro hfresh hnd _ _ _
      exact hnodup hfresh hnd

theorem addMedicine_validation_exact_witness :
    (∃ m, (VarA.postDawaOngeza [] "Panadol" "" (some 3) "m1" "t").res
        = AddMedRes.validationError m)
    ∧ (VarA.postDawaOngeza [] "Panadol" "maumivu" (some 3) "m1" "t").res
        = AddMedRes.redirect "/?add=success" :=
  ⟨(addMedicine_validation_exact [] "Panadol" "" (some 3) "m1" "t").1.mpr
     (Or.inr (Or.inl (by decide))),
   ((addMedicine_validation_exact [] "Panadol" "maumivu" (some 3) "m1" "t").2.1
     (by decide) (by decide) (by intro d hd _; exact absurd hd (List.not_mem_nil d))).1⟩

/-! ## Lemmas about transfer and usage recording -/

theorem updateFirst_find (watumiaji : List User) (uid cid : String)
    (hmem : watumiaji.any (fun u => u.id == uid) = true) :
    ∃ u ∈ watumiaji, u.id = uid ∧
      (updateFirst watumiaji uid cid).find? (fun w => w.id == uid)
        = some { u with clinicId := cid } := by
  induction watumiaji with
  | nil => simp at hmem
  | cons u rest ih =>
    by_cases hu : u.id = uid
    · refine ⟨u, List.mem_cons_self u rest, hu, ?_⟩
      unfold updateFirst
      rw [if_pos hu]
      have : (({ u with clinicId := cid } : User).id == uid) = true := by simp [hu]
      simp [List.find?, this]
    · have hmem' : rest.any (fun v => v.id == uid) = true := by
        rcases List.any_eq_true.mp hmem with ⟨v, hv, hbeq⟩
        rcases List.mem_cons.mp hv with rfl | hvr
        · exact absurd (by simpa using hbeq) hu
        · exact List.any_eq_true.mpr ⟨v, hvr, hbeq⟩
      obtain ⟨v, hv, hvid, hfind⟩ := ih hmem'
      refine ⟨v, List.mem_cons_of_mem u hv, hvid, ?_⟩
      unfold updateFirst
      rw [if_neg hu]
      have : (u.id == uid) = false := by simp [hu]
      simp only [List.find?, this]
      exact hfind

theorem mkUsages_clinic (freshId : Nat → String) (uid jina maelezo cid : String)
    (nowTs : Int) : ∀ (n : Nat) (valids : List ConfLine),
    ∀ m ∈ mkUsages freshId uid jina maelezo cid nowTs n valids, m.clinicId = cid := by
  intro n valids
  induction valids generalizing n with
  | nil => intro m hm; simp [mkUsages] at hm
  | cons c rest ih =>
    intro m hm
    unfold mkUsages at hm
    rcases List.mem_cons.mp hm with rfl | hr
    · rfl
    · exact ih (n + 1) m hr

theorem postMatumiziSajili_new_events (allDawa : List Medicine) (watumiaji : List User)
    (existing : List Usage) (mtumiajiId : String) (lines : List UsageLine)
    (freshId : Nat → String) (nowTs : Int)
    (hredir : (VarB.postMatumiziSajili allDawa watumiaji existing mtumiajiId (some lines)
        freshId nowTs).res = SajiliRes.redirect) :
    (stockCheck allDawa existing (collectConfirmed lines).fst).fst = [] ∧
    ∃ mtumiaji, watumiaji.find? (fun w => w.id == mtumiajiId) = some mtumiaji ∧
      (VarB.postMatumiziSajili allDawa watumiaji existing mtumiajiId (some lines)
          freshId nowTs).matumizi
        = existing ++ mkUsages freshId mtumiajiId mtumiaji.jina mtumiaji.maelezo
            (if mtumiaji.clinicId = "" then "unknown" else mtumiaji.clinicId) nowTs 0
            (stockCheck allDawa existing (collectConfirmed lines).fst).snd := by
  unfold VarB.postMatumiziSajili at hredir ⊢
  dsimp only at hredir ⊢
  by_cases h1 : mtumiajiId = ""
  · rw [if_pos h1] at hredir
    exact absurd hredir (by simp)
  rw [if_neg h1] at hredir ⊢
  by_cases hq : (collectConfirmed lines).snd ≠ []
  · rw [if_pos hq] at hredir
    exact absurd hredir (by simp)
  rw [if_neg hq] at hredir ⊢
  by_cases hc : (collectConfirmed lines).fst = []
  · rw [if_pos hc] at hredir
    exact absurd hredir (by simp)
  rw [if_neg hc] at hredir ⊢
  by_cases hs : (stockCheck allDawa existing (collectConfirmed lines).fst).fst ≠ []
  · rw [if_pos hs] at hredir
    exact absurd hredir (by simp)
  rw [if_neg hs] at hredir ⊢
  refine ⟨by push_neg at hs; exact hs, ?_⟩
  cases hfind : watumiaji.find? (fun w => w.id == mtumiajiId) with
  | none =>
    rw [hfind] at hredir
    exact absurd hredir (by simp)
  | some mtumiaji =>
    rw [hfind] at hredir
    exact ⟨mtumiaji, rfl, rfl⟩

/-! ## Claim theorems about the domain handlers (part 2) -/

/-- C9 (spec-modelled): deleting an absent user fails with NotFoundError;
deleting a present user removes exactly the rows carrying that id — the
deleted user is gone, every other user survives, nothing new appears — and
the usage-event table is returned unremoved and unaltered. -/
theorem deleteUser_spec_behavior (watumiaji : List User) (matumizi : List Usage)
    (userId : String) :
    ((∀ u ∈ watumiaji, u.id ≠ userId) →
      deleteUser watumiaji matumizi userId = Except.error "NotFoundError")
    ∧ (∀ u ∈ watumiaji, u.id = userId →
        deleteUser watumiaji matumizi userId
          = Except.ok (watumiaji.filter (fun v => v.id ≠ userId), matumizi))
    ∧ (∀ v ∈ watumiaji.filter (fun v => v.id ≠ userId), v ∈ watumiaji ∧ v.id ≠ userId)
    ∧ (∀ v ∈ watumiaji, v.id ≠ userId → v ∈ watumiaji.filter (fun v => v.id ≠ userId)) := by
  refine ⟨?_, ?_, ?_, ?_⟩
  · intro hall
    unfold deleteUser
    rw [if_neg]
    intro hany
    obtain ⟨u, hu, hbeq⟩ := List.any_eq_true.mp hany
    exact hall u hu (by simpa using hbeq)
  · intro u hu huid
    unfold deleteUser
    rw [if_pos (List.any_eq_true.mpr ⟨u, hu, by simp [huid]⟩)]
  · intro v hv
    have := List.mem_filter.mp hv
    exact ⟨this.1, by simpa using this.2⟩
  · intro v hv hne
    exact List.mem_filter.mpr ⟨hv, by simpa using hne⟩

theorem deleteUser_spec_behavior_witness :
    deleteUser [{ id := "u1", jina := "Juma", maelezo := "", clinicId := "C001" }]
        [{ id := "e1", dawaId := "m1", mtumiajiId := "u1", mtumiajiJina := "Juma",
           maelezo := "", kiasi := 2, tarehe := some 0, clinicId := "C001" }] "u9"
      = Except.error "NotFoundError"
    ∧ deleteUser [{ id := "u1", jina := "Juma", maelezo := "", clinicId := "C001" }]
        [{ id := "e1", dawaId := "m1", mtumiajiId := "u1", mtumiajiJina := "Juma",
           maelezo := "", kiasi := 2, tarehe := some 0, clinicId := "C001" }] "u1"
      = Except.ok ([],
        [{ id := "e1", dawaId := "m1", mtumiajiId := "u1", mtumiajiJina := "Juma",
           maelezo := "", kiasi := 2, tarehe := some 0, clinicId := "C001" }]) :=
  ⟨(deleteUser_spec_behavior
      [{ id := "u1", jina := "Juma", maelezo := "", clinicId := "C001" }]
      [{ id := "e1", dawaId := "m1", mtumiajiId := "u1", mtumiajiJina := "Juma",
         maelezo := "", kiasi := 2, tarehe := some 0, clinicId := "C001" }] "u9").1
     (by decide),
   (deleteUser_spec_behavior
      [{ id := "u1", jina := "Juma", maelezo := "", clinicId := "C001" }]
      [{ id := "e1", dawaId := "m1", mtumiajiId := "u1", mtumiajiJina := "Juma",
         maelezo := "", kiasi := 2, tarehe := some 0, clinicId := "C001" }] "u1").2.1
     { id := "u1", jina := "Juma", maelezo := "", clinicId := "C001" }
     (by decide) rfl⟩

/-- C4: after a successful transfer of a user to clinic `c`, an accepted
usage recording for that user stamps `c` — the clinic at usage time — on
every newly appended usage event. -/
theorem transfer_then_usage_stamps_new_clinic (watumiaji : List User)
    (mtumiajiId newClinicId : String) (allDawa : List Medicine) (existing : List Usage)
    (lines : List UsageLine) (freshId : Nat → String) (nowTs : Int)
    (htr : (VarB.postMtumiajiTransfer watumiaji mtumiajiId newClinicId).res
        = TransferRes.redirect)
    (hredir : (VarB.postMatumiziSajili allDawa
        (VarB.postMtumiajiTransfer watumiaji mtumiajiId newClinicId).watumiaji
        existing mtumiajiId (some lines) freshId nowTs).res = SajiliRes.redirect) :
    ∀ m ∈ (VarB.postMatumiziSajili allDawa
        (VarB.postMtumiajiTransfer watumiaji mtumiajiId newClinicId).watumiaji
        existing mtumiajiId (some lines) freshId nowTs).matumizi,
      m ∉ existing → m.clinicId = newClinicId := by
  have h1 : ¬(mtumiajiId = "" ∨ newClinicId = "") := by
    intro hor
    unfold VarB.postMtumiajiTransfer at htr
    rw [if_pos hor] at htr
    exact absurd htr (by simp)
  have h2 : watumiaji.any (fun u => u.id == mtumiajiId) = true := by
    by_contra h2
    unfold VarB.postMtumiajiTransfer at htr
    rw [if_neg h1, if_neg h2] at htr
    exact absurd htr (by simp)
  have hw : (VarB.postMtumiajiTransfer watumiaji mtumiajiId newClinicId).watumiaji
      = updateFirst watumiaji mtumiajiId newClinicId := by
    unfold VarB.postMtumiajiTransfer
    rw [if_neg h1, if_pos h2]
  have hcid : newClinicId ≠ "" := fun hc => h1 (Or.inr hc)
  rw [hw] at hredir ⊢
  obtain ⟨u, hu, huid, hfind⟩ := updateFirst_find watumiaji mtumiajiId newClinicId h2
  obtain ⟨-, mtumiaji, hfind', heq⟩ := postMatumiziSajili_new_events allDawa
    (updateFirst watumiaji mtumiajiId newClinicId) existing mtumiajiId lines freshId nowTs
    hredir
  have hmt : mtumiaji = { u with clinicId := newClinicId } :=
    Option.some.inj (hfind'.symm.trans hfind)
  intro m hm hnot
  rw [heq] at hm
  rcases List.mem_append.mp hm with hold | hnew
  · exact absurd hold hnot
  · have hc := mkUsages_clinic freshId mtumiajiId mtumiaji.jina mtumiaji.maelezo
      (if mtumiaji.clinicId = "" then "unknown" else mtumiaji.clinicId) nowTs 0
      (stockCheck allDawa existing (collectConfirmed lines).fst).snd m hnew
    rw [hc, hmt]
    show (if newClinicId = "" then "unknown" else newClinicId) = newClinicId
    rw [if_neg hcid]

theorem transfer_then_usage_stamps_new_clinic_witness :
    (VarB.postMatumiziSajili
        [{ id := "m1", jina := "Panadol", aina := "maumivu", kiasi := 10, UPDATED_AT := "t" }]
        (VarB.postMtumiajiTransfer
          [{ id := "u1", jina := "Juma", maelezo := "", clinicId := "C001" }] "u1" "C003").watumiaji
        [] "u1" (some [{ id := "m1", confirmed := "true", kiasi := some 2, tarehe := none }])
        (fun n => "e" ++ toString n) 50).matumizi
      = [{ id := "e0", dawaId := "m1", mtumiajiId := "u1", mtumiajiJina := "Juma",
           maelezo := "", kiasi := 2, tarehe := some 50, clinicId := "C003" }]
    ∧ ({ id := "e0", dawaId := "m1", mtumiajiId := "u1", mtumiajiJina := "Juma",
         maelezo := "", kiasi := 2, tarehe := some 50, clinicId := "C003" } : Usage).clinicId
        = "C003" := by
  have htr : (VarB.postMtumiajiTransfer
      [{ id := "u1", jina := "Juma", maelezo := "", clinicId := "C001" }] "u1" "C003").res
      = TransferRes.redirect := by
    decide
  have hout : VarB.postMatumiziSajili
      [{ id := "m1", jina := "Panadol", aina := "maumivu", kiasi := 10, UPDATED_AT := "t" }]
      (VarB.postMtumiajiTransfer
        [{ id := "u1", jina := "Juma", maelezo := "", clinicId := "C001" }] "u1" "C003").watumiaji
      [] "u1" (some [{ id := "m1", confirmed := "true", kiasi := some 2, tarehe := none }])
      (fun n => "e" ++ toString n) 50
      = { res := SajiliRes.redirect,
          matumizi := [{ id := "e0", dawaId := "m1", mtumiajiId := "u1", mtumiajiJina := "Juma",
                         maelezo := "", kiasi := 2, tarehe := some 50, clinicId := "C003" }] } := by
    norm_num [VarB.postMatumiziSajili, VarB.postMtumiajiTransfer, updateFirst,
      collectConfirmed, stockCheck, totalUsed, mkUsages, List.find?]
    decide
  refine ⟨by rw [hout], ?_⟩
  exact transfer_then_usage_stamps_new_clinic
    [{ id := "u1", jina := "Juma", maelezo := "", clinicId := "C001" }] "u1" "C003"
    [{ id := "m1", jina := "Panadol", aina := "maumivu", kiasi := 10, UPDATED_AT := "t" }]
    [] [{ id := "m1", confirmed := "true", kiasi := some 2, tarehe := none }]
    (fun n => "e" ++ toString n) 50 htr (by rw [hout])
    { id := "e0", dawaId := "m1", mtumiajiId := "u1", mtumiajiJina := "Juma",
      maelezo := "", kiasi := 2, tarehe := some 50, clinicId := "C003" }
    (by rw [hout]; exact List.mem_singleton_self _) (by simp)

/-! ## Lemmas about the stock check -/

theorem stockCheck_cons_missing (allDawa : List Medicine) (existing : List Usage)
    (c : ConfLine) (rest : List ConfLine)
    (h : allDawa.find? (fun m => m.id == c.id) = none) :
    stockCheck allDawa existing (c :: rest)
      = (StockIssue.missing c.id :: (stockCheck allDawa existing rest).fst,
         (stockCheck allDawa existing rest).snd) := by
  conv_lhs => unfold stockCheck
  rw [h]

theorem stockCheck_cons_over (allDawa : List Medicine) (existing : List Usage)
    (c : ConfLine) (rest : List ConfLine) (med : Medicine)
    (h : allDawa.find? (fun m => m.id == c.id) = some med)
    (hover : (c.kiasi : ℚ) > med.kiasi - totalUsed existing c.id) :
    stockCheck allDawa existing (c :: rest)
      = (StockIssue.insufficient med.jina (med.kiasi - totalUsed existing c.id)
           :: (stockCheck allDawa existing rest).fst,
         (stockCheck allDawa existing rest).snd) := by
  conv_lhs => unfold stockCheck
  rw [h]
  dsimp only
  rw [if_pos hover]

theorem stockCheck_cons_ok (allDawa : List Medicine) (existing : List Usage)
    (c : ConfLine) (rest : List ConfLine) (med : Medicine)
    (h : allDawa.find? (fun m => m.id == c.id) = some med)
    (hok : ¬ ((c.kiasi : ℚ) > med.kiasi - totalUsed existing c.id)) :
    stockCheck allDawa existing (c :: rest)
      = ((stockCheck allDawa existing rest).fst,
         c :: (stockCheck allDawa existing rest).snd) := by
  conv_lhs => unfold stockCheck
  rw [h]
  dsimp only
  rw [if_neg hok]

theorem stockCheck_empty_issues (allDawa : List Medicine) (existing : List Usage) :
    ∀ cs : List ConfLine, (stockCheck allDawa existing cs).fst = [] →
      (stockCheck allDawa existing cs).snd = cs := by
  intro cs
  induction cs with
  | nil => intro _; rfl
  | cons c rest ih =>
    intro hempty
    cases hfind : allDawa.find? (fun m => m.id == c.id) with
    | none =>
      rw [stockCheck_cons_missing allDawa existing c rest hfind] at hempty
      exact absurd hempty (by simp)
    | some med =>
      by_cases hover : (c.kiasi : ℚ) > med.kiasi - totalUsed existing c.id
      · rw [stockCheck_cons_over allDawa existing c rest med hfind hover] at hempty
        exact absurd hempty (by simp)
      · rw [stockCheck_cons_ok allDawa existing c rest med hfind hover] at hempty ⊢
        simp only at hempty ⊢
        rw [ih hempty]

theorem stockCheck_valid_bound (allDawa : List Medicine) (existing : List Usage) :
    ∀ (cs : List ConfLine) (c : ConfLine), c ∈ (stockCheck allDawa existing cs).snd →
      c ∈ cs ∧ ∃ med, allDawa.find? (fun m => m.id == c.id) = some med ∧
        (c.kiasi : ℚ) ≤ med.kiasi - totalUsed existing c.id := by
  intro cs
  induction cs with
  | nil =>
    intro c hc
    simp [stockCheck] at hc
  | cons c0 rest ih =>
    intro c hc
    cases hfind : allDawa.find? (fun m => m.id == c0.id) with
    | none =>
      rw [stockCheck_cons_missing allDawa existing c0 rest hfind] at hc
      obtain ⟨hin, bound⟩ := ih c hc
      exact ⟨List.mem_cons_of_mem c0 hin, bound⟩
    | some med =>
      by_cases hover0 : (c0.kiasi : ℚ) > med.kiasi - totalUsed existing c0.id
      · rw [stockCheck_cons_over allDawa existing c0 rest med hfind hover0] at hc
        obtain ⟨hin, bound⟩ := ih c hc
        exact ⟨List.mem_cons_of_mem c0 hin, bound⟩
      · rw [stockCheck_cons_ok allDawa existing c0 rest med hfind hover0] at hc
        simp only at hc
        rcases List.mem_cons.mp hc with rfl | hr
        · exact ⟨List.mem_cons_self c rest, med, hfind, not_lt.mp hover0⟩
        · obtain ⟨hin, bound⟩ := ih c hr
          exact ⟨List.mem_cons_of_mem c0 hin, bound⟩

theorem stockCheck_insufficient_mem (allDawa : List Medicine) (existing : List Usage) :
    ∀ (cs : List ConfLine) (c : ConfLine) (med : Medicine), c ∈ cs →
      allDawa.find? (fun m => m.id == c.id) = some med →
      med.kiasi - totalUsed existing c.id < (c.kiasi : ℚ) →
      StockIssue.insufficient med.jina (med.kiasi - totalUsed existing c.id)
        ∈ (stockCheck allDawa existing cs).fst := by
  intro cs
  induction cs with
  | nil =>
    intro c med hc
    exact absurd hc (List.not_mem_nil c)
  | cons c0 rest ih =>
    intro c med hc hfind hover
    rcases List.mem_cons.mp hc with rfl | hr
    · rw [stockCheck_cons_over allDawa existing c rest med hfind hover]
      exact List.mem_cons_self _ _
    · have htail := ih c med hr hfind hover
      cases hfind0 : allDawa.find? (fun m => m.id == c0.id) with
      | none =>
        rw [stockCheck_cons_missing allDawa existing c0 rest hfind0]
        exact List.mem_cons_of_mem _ htail
      | some med0 =>
        by_cases hover0 : (c0.kiasi : ℚ) > med0.kiasi - totalUsed existing c0.id
        · rw [stockCheck_cons_over allDawa existing c0 rest med0 hfind0 hover0]
          exact List.mem_cons_of_mem _ htail
        · rw [stockCheck_cons_ok allDawa existing c0 rest med0 hfind0 hover0]
          exact htail

theorem totalUsed_append (e1 e2 : List Usage) (did : String) :
    totalUsed (e1 ++ e2) did = totalUsed e1 did + totalUsed e2 did := by
  unfold totalUsed
  rw [List.filter_append, List.map_append, List.sum_append]

theorem totalUsed_mkUsages (freshId : Nat → String) (uid jina maelezo cid : String)
    (nowTs : Int) (did : String) : ∀ (valids : List ConfLine) (n : Nat),
    totalUsed (mkUsages freshId uid jina maelezo cid nowTs n valids) did
      = ((valids.filter (fun c => c.id == did)).map (fun c => (c.kiasi : ℚ))).sum := by
  intro valids
  induction valids with
  | nil =>
    intro n
    rfl
  | cons c rest ih =>
    intro n
    unfold mkUsages totalUsed
    simp only [List.filter_cons]
    by_cases hid : (c.id == did) = true
    · simp only [hid, if_pos]
      unfold totalUsed at ih
      simp [ih (n + 1)]
    · have : (c.id == did) = false := by simpa using hid
      simp only [this]
      unfold totalUsed at ih
      simp [ih (n + 1), this]

theorem filter_single_of_nodup :
    ∀ (cs : List ConfLine), ((cs.map ConfLine.id).Nodup) → ∀ did : String,
      cs.filter (fun c => c.id == did) = []
      ∨ ∃ c ∈ cs, cs.filter (fun c => c.id == did) = [c] := by
  intro cs
  induction cs with
  | nil =>
    intro _ did
    exact Or.inl rfl
  | cons c rest ih =>
    intro hnodup did
    rw [List.map_cons] at hnodup
    have hnd := List.nodup_cons.mp hnodup
    rw [List.filter_cons]
    by_cases hid : (c.id == did) = true
    · rw [if_pos hid]
      right
      refine ⟨c, List.mem_cons_self c rest, ?_⟩
      have hrest : rest.filter (fun c => c.id == did) = [] := by
        rw [List.filter_eq_nil_iff]
        intro c' hc' hbeq
        apply hnd.1
        have hcdid : c.id = did := by simpa using hid
        have hcdid' : c'.id = did := by simpa using hbeq
        rw [show ConfLine.id c = c'.id from hcdid.trans hcdid'.symm]
        exact List.mem_map.mpr ⟨c', hc', rfl⟩
      rw [hrest]
    · have hfalse : (c.id == did) = false := by simpa using hid
      rw [if_neg (by simp [hfalse])]
      rcases ih hnd.2 did with hempty | ⟨c', hc', hfil⟩
      · exact Or.inl hempty
      · exact Or.inr ⟨c', List.mem_cons_of_mem c hc', hfil⟩

/-- C1 counterexample: a single batch containing two confirmed line items
for the same medicine (quantityOnHand 10, 6 requested twice) passes the
per-line stock check — each line is compared against existing usage only —
and is accepted, leaving total recorded usage 12 > 10. -/
theorem sajili_duplicate_lines_violate_stock :
    (VarB.postMatumiziSajili
        [{ id := "m1", jina := "Panadol", aina := "maumivu", kiasi := 10, UPDATED_AT := "t" }]
        [{ id := "u1", jina := "Juma", maelezo := "", clinicId := "C001" }]
        [] "u1"
        (some [{ id := "m1", confirmed := "true", kiasi := some 6, tarehe := none },
               { id := "m1", confirmed := "true", kiasi := some 6, tarehe := none }])
        (fun n => "e" ++ toString n) 50).res = SajiliRes.redirect
    ∧ totalUsed (VarB.postMatumiziSajili
        [{ id := "m1", jina := "Panadol", aina := "maumivu", kiasi := 10, UPDATED_AT := "t" }]
        [{ id := "u1", jina := "Juma", maelezo := "", clinicId := "C001" }]
        [] "u1"
        (some [{ id := "m1", confirmed := "true", kiasi := some 6, tarehe := none },
               { id := "m1", confirmed := "true", kiasi := some 6, tarehe := none }])
        (fun n => "e" ++ toString n) 50).matumizi "m1" = 12
    ∧ ¬ ((12 : ℚ) ≤ 10) := by
  have hout : VarB.postMatumiziSajili
      [{ id := "m1", jina := "Panadol", aina := "maumivu", kiasi := 10, UPDATED_AT := "t" }]
      [{ id := "u1", jina := "Juma", maelezo := "", clinicId := "C001" }]
      [] "u1"
      (some [{ id := "m1", confirmed := "true", kiasi := some 6, tarehe := none },
             { id := "m1", confirmed := "true", kiasi := some 6, tarehe := none }])
      (fun n => "e" ++ toString n) 50
      = { res := SajiliRes.redirect,
          matumizi := [{ id := "e0", dawaId := "m1", mtumiajiId := "u1", mtumiajiJina := "Juma",
                         maelezo := "", kiasi := 6, tarehe := some 50, clinicId := "C001" },
                       { id := "e1", dawaId := "m1", mtumiajiId := "u1", mtumiajiJina := "Juma",
                         maelezo := "", kiasi := 6, tarehe := some 50, clinicId := "C001" }] } := by
    norm_num [VarB.postMatumiziSajili, collectConfirmed, stockCheck, totalUsed, mkUsages,
      List.find?]
    decide
  rw [hout]
  refine ⟨rfl, ?_, by norm_num⟩
  norm_num [totalUsed]

/-- C1 (amended): in the stock-checking variant, if the store satisfies the
derived-stock invariant and medicine ids are unique, an accepted batch whose
confirmed line items reference pairwise-distinct medicines preserves the
invariant; and whenever some confirmed line requests more than the remaining
stock of its medicine, the whole request fails with the itemized
insufficient-stock message ("... inabaki N pekee") and the usage table is
left unchanged. -/
theorem sajili_stock_invariant :
    (∀ (allDawa : List Medicine) (watumiaji : List User) (existing : List Usage)
       (mtumiajiId : String) (lines : List UsageLine) (freshId : Nat → String) (nowTs : Int),
       (∀ d ∈ allDawa, totalUsed existing d.id ≤ d.kiasi) →
       (allDawa.map Medicine.id).Nodup →
       (((collectConfirmed lines).fst).map ConfLine.id).Nodup →
       (VarB.postMatumiziSajili allDawa watumiaji existing mtumiajiId (some lines)
           freshId nowTs).res = SajiliRes.redirect →
       ∀ d ∈ allDawa,
         totalUsed (VarB.postMatumiziSajili allDawa watumiaji existing mtumiajiId (some lines)
             freshId nowTs).matumizi d.id ≤ d.kiasi)
    ∧ (∀ (allDawa : List Medicine) (watumiaji : List User) (existing : List Usage)
         (mtumiajiId : String) (lines : List UsageLine) (freshId : Nat → String) (nowTs : Int)
         (c : ConfLine) (med : Medicine),
       mtumiajiId ≠ "" →
       (collectConfirmed lines).snd = [] →
       c ∈ (collectConfirmed lines).fst →
       allDawa.find? (fun m => m.id == c.id) = some med →
       med.kiasi - totalUsed existing c.id < (c.kiasi : ℚ) →
       (VarB.postMatumiziSajili allDawa watumiaji existing mtumiajiId (some lines)
           freshId nowTs).res
         = SajiliRes.stockError (stockCheck allDawa existing (collectConfirmed lines).fst).fst
       ∧ StockIssue.insufficient med.jina (med.kiasi - totalUsed existing c.id)
           ∈ (stockCheck allDawa existing (collectConfirmed lines).fst).fst
       ∧ renderIssue (StockIssue.insufficient med.jina (med.kiasi - totalUsed existing c.id))
           = "Dawa ya " ++ med.jina ++ " inabaki "
             ++ ratStr (med.kiasi - totalUsed existing c.id) ++ " pekee"
       ∧ (VarB.postMatumiziSajili allDawa watumiaji existing mtumiajiId (some lines)
           freshId nowTs).matumizi = existing) := by
  constructor
  · intro allDawa watumiaji existing mtumiajiId lines freshId nowTs hpre hnodupD hnodupC
      hredir d hd
    obtain ⟨hstock, mtumiaji, hfind, heq⟩ := postMatumiziSajili_new_events allDawa watumiaji
      existing mtumiajiId lines freshId nowTs hredir
    rw [heq, totalUsed_append, totalUsed_mkUsages,
      stockCheck_empty_issues allDawa existing (collectConfirmed lines).fst hstock]
    rcases filter_single_of_nodup (collectConfirmed lines).fst hnodupC d.id with
      hnone | ⟨c, hcmem, hfil⟩
    · rw [hnone]
      simpa using hpre d hd
    · rw [hfil]
      have hcfil : c ∈ (collectConfirmed lines).fst.filter (fun c => c.id == d.id) := by
        rw [hfil]
        exact List.mem_singleton_self c
      have hcid : c.id = d.id := by
        have := List.mem_filter.mp hcfil
        simpa using this.2
      have hcsnd : c ∈ (stockCheck allDawa existing (collectConfirmed lines).fst).snd := by
        rw [stockCheck_empty_issues allDawa existing (collectConfirmed lines).fst hstock]
        exact hcmem
      obtain ⟨-, med, hfmed, hble⟩ :=
        stockCheck_valid_bound allDawa existing (collectConfirmed lines).fst c hcsnd
      have hmedmem : med ∈ allDawa := List.mem_of_find?_eq_some hfmed
      have hmedid : med.id = c.id := by simpa using List.find?_some hfmed
      have hdm : d = med :=
        List.inj_on_of_nodup_map hnodupD hd hmedmem (by rw [hmedid, hcid])
      simp only [List.map_cons, List.map_nil, List.sum_cons, List.sum_nil, add_zero]
      rw [hdm, hmedid]
      linarith [hble]
  · intro allDawa watumiaji existing mtumiajiId lines freshId nowTs c med hmid hq hc hfmed
      hover
    have hmem := stockCheck_insufficient_mem allDawa existing (collectConfirmed lines).fst
      c med hc hfmed hover
    have hsne : (stockCheck allDawa existing (collectConfirmed lines).fst).fst ≠ [] :=
      List.ne_nil_of_mem hmem
    have hform : VarB.postMatumiziSajili allDawa watumiaji existing mtumiajiId (some lines)
        freshId nowTs
        = { res := SajiliRes.stockError
              (stockCheck allDawa existing (collectConfirmed lines).fst).fst,
            matumizi := existing } := by
      unfold VarB.postMatumiziSajili
      dsimp only
      rw [if_neg hmid, if_neg (by simp [hq]), if_neg (List.ne_nil_of_mem hc), if_pos hsne]
    rw [hform]
    exact ⟨rfl, hmem, rfl, rfl⟩

theorem sajili_stock_invariant_witness :
    ((VarB.postMatumiziSajili
        [{ id := "m1", jina := "Panadol", aina := "maumivu", kiasi := 10, UPDATED_AT := "t" }]
        [{ id := "u1", jina := "Juma", maelezo := "", clinicId := "C001" }]
        [{ id := "e1", dawaId := "m1", mtumiajiId := "u1", mtumiajiJina := "Juma",
           maelezo := "", kiasi := 7, tarehe := some 10, clinicId := "C001" }]
        "u1" (some [{ id := "m1", confirmed := "true", kiasi := some 4, tarehe := none }])
        (fun n => "e" ++ toString n) 50).res
      = SajiliRes.stockError (stockCheck
          [{ id := "m1", jina := "Panadol", aina := "maumivu", kiasi := 10, UPDATED_AT := "t" }]
          [{ id := "e1", dawaId := "m1", mtumiajiId := "u1", mtumiajiJina := "Juma",
             maelezo := "", kiasi := 7, tarehe := some 10, clinicId := "C001" }]
          (collectConfirmed
            [{ id := "m1", confirmed := "true", kiasi := some 4, tarehe := none }]).fst).fst)
    ∧ (VarB.postMatumiziSajili
        [{ id := "m1", jina := "Panadol", aina := "maumivu", kiasi := 10, UPDATED_AT := "t" }]
        [{ id := "u1", jina := "Juma", maelezo := "", clinicId := "C001" }]
        [{ id := "e1", dawaId := "m1", mtumiajiId := "u1", mtumiajiJina := "Juma",
           maelezo := "", kiasi := 7, tarehe := some 10, clinicId := "C001" }]
        "u1" (some [{ id := "m1", confirmed := "true", kiasi := some 4, tarehe := none }])
        (fun n => "e" ++ toString n) 50).matumizi
      = [{ id := "e1", dawaId := "m1", mtumiajiId := "u1", mtumiajiJina := "Juma",
           maelezo := "", kiasi := 7, tarehe := some 10, clinicId := "C001" }]
    ∧ renderIssue (StockIssue.insufficient "Panadol" 3) = "Dawa ya Panadol inabaki 3 pekee" := by
  have happ := sajili_stock_invariant.2
    [{ id := "m1", jina := "Panadol", aina := "maumivu", kiasi := 10, UPDATED_AT := "t" }]
    [{ id := "u1", jina := "Juma", maelezo := "", clinicId := "C001" }]
    [{ id := "e1", dawaId := "m1", mtumiajiId := "u1", mtumiajiJina := "Juma",
       maelezo := "", kiasi := 7, tarehe := some 10, clinicId := "C001" }]
    "u1" [{ id := "m1", confirmed := "true", kiasi := some 4, tarehe := none }]
    (fun n => "e" ++ toString n) 50
    { id := "m1", kiasi := 4, tarehe := none }
    { id := "m1", jina := "Panadol", aina := "maumivu", kiasi := 10, UPDATED_AT := "t" }
    (by decide) (by decide) (by decide) (by decide)
    (by
      show (10 : ℚ) - totalUsed
          [{ id := "e1", dawaId := "m1", mtumiajiId := "u1", mtumiajiJina := "Juma",
             maelezo := "", kiasi := 7, tarehe := some 10, clinicId := "C001" }] "m1"
        < ((4 : Int) : ℚ)
      norm_num [totalUsed])
  exact ⟨happ.1, happ.2.2.2, by decide⟩

/-! ## Lemmas about report grouping -/

theorem lookupGroup_insGroup {β : Type} (g : List (String × List β)) (k k' : String) (b : β) :
    lookupGroup (insGroup g k' b) k
      = if k' = k then lookupGroup g k ++ [b] else lookupGroup g k := by
  induction g with
  | nil =>
    by_cases hk : k' = k
    · subst hk
      simp [insGroup, lookupGroup, List.find?]
    · have : (k' == k) = false := by simpa using hk
      simp [insGroup, lookupGroup, List.find?, this, hk]
  | cons p rest ih =>
    obtain ⟨k0, bs⟩ := p
    by_cases h0 : k0 = k'
    · subst h0
      unfold insGroup
      rw [if_pos rfl]
      by_cases hk : k0 = k
      · subst hk
        simp [lookupGroup, List.find?]
      · have : (k0 == k) = false := by simpa using hk
        simp [lookupGroup, List.find?, this, hk]
    · unfold insGroup
      rw [if_neg h0]
      by_cases hk : k0 = k
      · subst hk
        have hne : ¬ k' = k0 := fun h => h0 h.symm
        simp [lookupGroup, List.find?, hne]
      · have : (k0 == k) = false := by simpa using hk
        unfold lookupGroup
        simp only [List.find?, this]
        exact ih

theorem lookupGroup_foldl {α β : Type} (key : α → String) (val : α → β) :
    ∀ (l : List α) (g : List (String × List β)) (k : String),
      lookupGroup (l.foldl (fun g a => insGroup g (key a) (val a)) g) k
        = lookupGroup g k ++ ((l.filter (fun a => key a == k)).map val) := by
  intro l
  induction l with
  | nil =>
    intro g k
    simp
  | cons a rest ih =>
    intro g k
    rw [List.foldl_cons, ih, List.filter_cons]
    by_cases hk : key a = k
    · have hbeq : (key a == k) = true := by simpa using hk
      rw [hbeq]
      simp only [if_pos]
      rw [lookupGroup_insGroup g k (key a) (val a), if_pos hk]
      simp
    · have hbeq : (key a == k) = false := by simpa using hk
      rw [hbeq]
      simp only [Bool.false_eq_true, if_false]
      rw [lookupGroup_insGroup g k (key a) (val a), if_neg hk]

/-! ## Claim theorems about the usage report -/

/-- C5 counterexample: in the first xlsx variant, `mode = 'month'` reads
explicit `from`/`to` fields; with both absent no date filter is applied, so
an event dated outside any current month (timestamp 300, while the current
month would span, say, 0 to 200) still appears in the report. -/
theorem reportA_month_without_range_unfiltered :
    VarA.ripotiMatumizi (fun t => t) (fun t => t) (fun t => toString t) (fun _ => "--:--")
        "month" none none
        [{ id := "u1", jina := "Juma", maelezo := "", clinicId := "C001" }]
        []
        [{ id := "e1", dawaId := "m1", mtumiajiId := "u1", mtumiajiJina := "Juma",
           maelezo := "", kiasi := 2, tarehe := some 300, clinicId := "C001" }]
        []
      = [{ jina := "Juma",
           matumiziByDate := [("300", [{ dawa := "Haijulikani", kiasi := 2, saa := "--:--",
                                         kliniki := "Haijulikani" }])] }]
    ∧ inRange 0 200
        { id := "e1", dawaId := "m1", mtumiajiId := "u1", mtumiajiJina := "Juma",
          maelezo := "", kiasi := 2, tarehe := some 300, clinicId := "C001" } = false := by
  refine ⟨by decide, by decide⟩

/-- C5 (amended): in the variant that computes the boundary from the clock,
`mode = 'month'` reports, for every stored user and every formatted day,
exactly that user's events whose (parseable) timestamp lies between the
first and last day of the current month inclusive, grouped in event order
under the day key; the other variant filters nothing when `from`/`to` are
absent. -/
theorem reportB_month_filters_and_groups (monthStart monthEnd : Int)
    (fmtDay fmtTime : Int → String) (watumiaji : List User) (dawa : List Medicine)
    (matumizi : List Usage) (clinics : List Clinic) :
    List.Forall₂ (fun u row => row.jina = u.jina ∧ ∀ k : String,
        lookupGroup row.matumiziByDate k
          = ((matumizi.filter (fun m => inRange monthStart monthEnd m
               && (m.mtumiajiId == u.id) && (fmtDayOf fmtDay m == k))).map
              (entryOf dawa clinics fmtTime)))
      watumiaji
      (VarB.ripotiMatumiziMonth monthStart monthEnd fmtDay fmtTime watumiaji dawa matumizi
        clinics) := by
  unfold VarB.ripotiMatumiziMonth reportRows
  rw [List.forall₂_map_right_iff, List.forall₂_same]
  intro u _
  refine ⟨rfl, ?_⟩
  intro k
  show lookupGroup
      (((matumizi.filter (inRange monthStart monthEnd)).filter
          (fun m => m.mtumiajiId == u.id)).foldl
        (fun g m => insGroup g (fmtDayOf fmtDay m) (entryOf dawa clinics fmtTime m)) []) k
    = _
  rw [lookupGroup_foldl (fmtDayOf fmtDay) (entryOf dawa clinics fmtTime)]
  show [] ++ _ = _
  rw [List.nil_append, List.filter_filter, List.filter_filter]
  congr 1
  apply List.filter_congr
  intro m _
  cases hx : inRange monthStart monthEnd m <;>
    cases hy : (m.mtumiajiId == u.id) <;>
      cases hz : (fmtDayOf fmtDay m == k) <;> simp [hx, hy, hz]
